import Mathlib

/-!
Shallow embedding of the WebVFS core (the `VFS` class and the `MemoryDriver`
storage backend) and proofs about the claims of its specification.

JavaScript `Map`s are modelled as association lists with `Map.set`/`Map.get`
semantics (update-in-place keeps the position, a new key is appended, so
insertion order is preserved), `Set`s as duplicate-free lists, `Uint8Array`s
as `List Nat`, `Date.now()` as an explicit `now : Nat` argument, thrown
exceptions as `Except VfsError`, and the pluggable asynchronous storage
driver as a record of state-passing functions whose flush may fail.
-/

deriving instance DecidableEq for Except

namespace WebVFS

/-- JS `Map.get`: the value stored at the first (unique) matching key. -/
def mapGet {κ α : Type} [DecidableEq κ] (l : List (κ × α)) (k : κ) : Option α :=
  match l with
  | [] => none
  | p :: t => if p.1 = k then some p.2 else mapGet t k

/-- JS `Map.set`: replace in place if the key is present, else append. -/
def mapSet {κ α : Type} [DecidableEq κ] (l : List (κ × α)) (k : κ) (v : α) : List (κ × α) :=
  match l with
  | [] => [(k, v)]
  | p :: t => if p.1 = k then (k, v) :: t else p :: mapSet t k v

/-- JS `Map.delete`: remove the (unique) entry with the given key. -/
def mapDelete {κ α : Type} [DecidableEq κ] (l : List (κ × α)) (k : κ) : List (κ × α) :=
  match l with
  | [] => []
  | p :: t => if p.1 = k then t else p :: mapDelete t k

/-- JS `Set.add`: append if absent. -/
def setAdd (l : List Nat) (x : Nat) : List Nat :=
  if x ∈ l then l else l ++ [x]

/-- `InodeType` from the source: `"file" | "dir" | "symlink"`. -/
inductive InodeType : Type
  | file
  | dir
  | symlink
deriving DecidableEq, Repr

/-- `InodePayload`: optional byte buffer for files, target string for symlinks. -/
structure InodePayload : Type where
  file : Option (List Nat) := none
  symlink : Option String := none
deriving DecidableEq, Repr

/-- The `Inode` record of the source, with JS numbers as `Nat`. -/
structure Inode : Type where
  id : Nat
  type : InodeType
  mode : Nat
  uid : Nat
  gid : Nat
  ctime : Nat
  mtime : Nat
  atime : Nat
  size : Nat
  links : Nat
  payload : Option InodePayload := none
  parent : Nat
  name : Option String := none
deriving DecidableEq, Repr

/-- `FileOpenMode`: `"r" | "w" | "rw"`. -/
inductive FileOpenMode : Type
  | r
  | w
  | rw
deriving DecidableEq, Repr

/-- `mode.includes("w")`. -/
def FileOpenMode.includesW : FileOpenMode → Bool
  | .r => false
  | .w => true
  | .rw => true

/-- `mode.includes("r")`. -/
def FileOpenMode.includesR : FileOpenMode → Bool
  | .r => true
  | .w => false
  | .rw => true

/-- The `FileHandle` record. -/
structure FileHandle : Type where
  fd : Nat
  inodeId : Nat
  offset : Nat
  mode : FileOpenMode
deriving DecidableEq, Repr

/-- Error kinds thrown by the VFS; `corrupt` models a JS crash on a dangling
id (`getInode` non-null assertion failing), `backend` a rejected driver call. -/
inductive VfsError : Type
  | emptyPath
  | enotdir
  | enoent
  | eisdir
  | eexist
  | ebadf
  | corrupt
  | backend (msg : String)
deriving DecidableEq, Repr

/-- `SerializedFS`: snapshot shape of the storage driver interface. -/
structure SerializedFS : Type where
  inodes : List (Nat × Inode)
  dirs : List (Nat × List (String × Nat))
deriving DecidableEq, Repr

/-- `FSDelta`: flush payload with the full snapshot and the dirty subset. -/
structure FSDelta : Type where
  fullSnapshot : SerializedFS
  changes : SerializedFS
deriving DecidableEq, Repr

/-- A storage driver with internal state `σ`: `loadFS` reads a snapshot,
`flushDelta` persists a delta and may fail with an error message. -/
structure Driver (σ : Type) : Type where
  loadFS : σ → SerializedFS × σ
  flushDelta : FSDelta → σ → Except String σ

/-- The mutable fields of the `VFS` class. -/
structure VFSState : Type where
  inodes : List (Nat × Inode)
  dirs : List (Nat × List (String × Nat))
  nextInodeId : Nat
  nextFd : Nat
  handles : List (Nat × FileHandle)
  cwdId : Nat
  dirtyInodes : List Nat
  dirtyDirs : List Nat
deriving DecidableEq, Repr

/-- The `{target?, parent}` pair returned by `resolve`. -/
structure ResolveResult : Type where
  target : Option Inode
  parent : Inode
deriving DecidableEq, Repr

/-- Field defaults of a freshly constructed `VFS` object. -/
def emptyVFS : VFSState :=
  { inodes := [], dirs := [], nextInodeId := 2, nextFd := 3, handles := [],
    cwdId := 1, dirtyInodes := [], dirtyDirs := [] }

/-- `getInode(id)`: the source uses a non-null assertion; a dangling id is a
crash, modelled as the `corrupt` error. -/
def getInodeE (st : VFSState) (id : Nat) : Except VfsError Inode :=
  match mapGet st.inodes id with
  | some i => .ok i
  | none => .error .corrupt

/-- `child(dirId, name)`: entry-map lookup followed by `getInode`; a missing
directory map, a missing name, or a dangling child id all give `none`
(in JS the dangling id makes `getInode` return `undefined`, which `child`
passes through as not-found). -/
def child (st : VFSState) (dirId : Nat) (name : String) : Option Inode :=
  match mapGet st.dirs dirId with
  | none => none
  | some dir =>
    match mapGet dir name with
    | none => none
    | some childId => mapGet st.inodes childId

/-- Maximal runs of non-`/` characters: the combination
`split("/").filter(Boolean)` of the source, written as structural recursion
so the kernel can evaluate it (`acc` holds the current run reversed). -/
def partsAux : List Char → List Char → List String
  | [], acc => if acc = [] then [] else [String.mk acc.reverse]
  | c :: cs, acc =>
    if c = '/' then
      (if acc = [] then partsAux cs [] else String.mk acc.reverse :: partsAux cs [])
    else partsAux cs (c :: acc)

/-- `path.split("/").filter(Boolean)`. -/
def pathParts (path : String) : List String :=
  partsAux path.data []

/-- `path.replace(/\/+$/, "")`: strip the trailing run of slashes. -/
def dropTrailingSlashes (path : String) : String :=
  String.mk (((path.data.reverse).dropWhile (fun c => c = '/')).reverse)

/-- `path.startsWith("/")`. -/
def startsWithSlash (path : String) : Bool :=
  path.data.head? = some '/'

/-- The segment loop of `resolve`, cursor `cur` and running `parent`. -/
def resolveSegs (st : VFSState) : Inode → Inode → List String → Except VfsError ResolveResult
  | cur, parent, [] => .ok ⟨some cur, parent⟩
  | cur, parent, seg :: rest =>
    if seg = "." then resolveSegs st cur parent rest
    else if seg = ".." then
      if cur.parent = 0 then resolveSegs st cur parent rest
      else
        match (if cur.parent ≠ 0 then getInodeE st cur.parent else getInodeE st 1) with
        | .error e => .error e
        | .ok p1 =>
          match (if p1.id ≠ 1 then
                   (if p1.parent ≠ 0 then getInodeE st p1.parent else getInodeE st 1)
                 else .ok p1) with
          | .error e => .error e
          | .ok parent2 => resolveSegs st p1 parent2 rest
    else
      if cur.type ≠ .dir then .error .enotdir
      else
        match child st cur.id seg with
        | none => .ok ⟨none, cur⟩
        | some c => resolveSegs st c cur rest

/-- `resolve(path)` of the driver-backed `VFS` class. -/
def resolve (st : VFSState) (path : String) : Except VfsError ResolveResult :=
  if path = "" then .error .emptyPath
  else
    let normalizePath := if path = "/" then "/" else dropTrailingSlashes path
    let isAbs := startsWithSlash normalizePath
    match getInodeE st (if isAbs then 1 else st.cwdId) with
    | .error e => .error e
    | .ok cur =>
      let parts := pathParts normalizePath
      if parts = [] ∧ isAbs then
        match getInodeE st 1 with
        | .error e => .error e
        | .ok root => .ok ⟨some root, root⟩
      else resolveSegs st cur cur parts

/-- `markDirtyInode(id)`. -/
def markDirtyInode (st : VFSState) (id : Nat) : VFSState :=
  { st with dirtyInodes := setAdd st.dirtyInodes id }

/-- `markDirtyDir(id)`. -/
def markDirtyDir (st : VFSState) (id : Nat) : VFSState :=
  { st with dirtyDirs := setAdd st.dirtyDirs id }

/-- The delta `flush` builds: full snapshot plus the dirty subsets. -/
def mkDelta (st : VFSState) : FSDelta :=
  { fullSnapshot := { inodes := st.inodes, dirs := st.dirs },
    changes :=
      { inodes := st.dirtyInodes.filterMap (fun id => (mapGet st.inodes id).map (fun i => (id, i))),
        dirs := st.dirtyDirs.filterMap (fun id => (mapGet st.dirs id).map (fun m => (id, m))) } }

/-- `flush()`: no-op when both dirty sets are empty; otherwise sends the delta
to the driver and clears the dirty sets only on success (a rejected driver
call propagates, leaving the caller's state untouched). -/
def flush {σ : Type} (d : Driver σ) (st : VFSState) (ds : σ) :
    Except VfsError (VFSState × σ) :=
  if st.dirtyInodes.isEmpty && st.dirtyDirs.isEmpty then .ok (st, ds)
  else
    match d.flushDelta (mkDelta st) ds with
    | .ok ds2 => .ok ({ st with dirtyInodes := [], dirtyDirs := [] }, ds2)
    | .error e => .error (.backend e)

/-- A fire-and-forget `this.flush()` (no `await`, as in `open`/`cd`): a
rejection becomes an unhandled promise, the caller keeps its prior state. -/
def flushFF {σ : Type} (d : Driver σ) (st : VFSState) (ds : σ) : VFSState × σ :=
  match flush d st ds with
  | .ok p => p
  | .error _ => (st, ds)

/-- `sync()`. -/
def sync {σ : Type} (d : Driver σ) (st : VFSState) (ds : σ) :
    Except VfsError (VFSState × σ) :=
  flush d st ds

/-- The root inode built on first boot (`bootstrap`) and by `initRoot`. -/
def rootInode (now : Nat) : Inode :=
  { id := 1, type := .dir, mode := 493, uid := 0, gid := 0,
    ctime := now, mtime := now, atime := now, size := 0, links := 2,
    payload := none, parent := 0, name := some "/" }

/-- `bootstrap()`: restore from a non-empty snapshot (setting the id counter
to `max(keys)+1`), or create `/`, mark it dirty and flush a baseline. -/
def bootstrap {σ : Type} (d : Driver σ) (now : Nat) (ds : σ) :
    Except VfsError (VFSState × σ) :=
  let load := d.loadFS ds
  let snap := load.1
  let ds := load.2
  if snap.inodes ≠ [] then
    .ok ({ emptyVFS with
            inodes := snap.inodes, dirs := snap.dirs,
            nextInodeId := (snap.inodes.map (fun p => p.1)).foldl max 0 + 1 }, ds)
  else
    let st := { emptyVFS with
                 inodes := mapSet [] 1 (rootInode now), dirs := mapSet [] 1 [],
                 nextInodeId := 2, dirtyInodes := [1], dirtyDirs := [1] }
    flush d st ds

/-- `VFS.create(driver)`: bootstrap, then `initRoot` if inode 1 is missing. -/
def create {σ : Type} (d : Driver σ) (now : Nat) (ds : σ) :
    Except VfsError (VFSState × σ) := do
  let (st, ds) ← bootstrap d now ds
  if (mapGet st.inodes 1).isNone then
    let st2 := { st with inodes := mapSet st.inodes 1 (rootInode now),
                         dirs := mapSet st.dirs 1 [] }
    return (st2, ds)
  else
    return (st, ds)

/-- The empty snapshot `{inodes: {}, dirs: {}}`. -/
def emptySnap : SerializedFS := { inodes := [], dirs := [] }

/-- The `MemoryDriver`: state is the optional stored snapshot; `loadFS`
returns it (or the empty snapshot), `flushDelta` stores the full snapshot
and never fails. -/
def MemoryDriver : Driver (Option SerializedFS) :=
  { loadFS := fun s => (s.getD emptySnap, s),
    flushDelta := fun delta _ => .ok (some delta.fullSnapshot) }

/-- `open(path, mode)`: resolve, create the file if missing (needs write
capability), allocate a handle at offset 0, set atime, mark dirty, and
fire a flush. Returns the new fd. -/
def openF {σ : Type} (d : Driver σ) (now : Nat) (path : String) (mode : FileOpenMode)
    (st : VFSState) (ds : σ) : Except VfsError (Nat × VFSState × σ) := do
  let r ← resolve st path
  if r.parent.type ≠ .dir then throw .enotdir else
  let fs ←
    (match r.target with
     | none =>
       if ¬ mode.includesW then throw .enoent
       else
         let name := (pathParts path).getLast?.getD ""
         let node : Inode :=
           { id := st.nextInodeId, type := .file, name := some name, parent := r.parent.id,
             mode := 420, uid := 0, gid := 0, ctime := now, mtime := now, atime := now,
             size := 0, links := 1, payload := some { file := some [], symlink := none } }
         let st1 := { st with inodes := mapSet st.inodes node.id node,
                              nextInodeId := st.nextInodeId + 1 }
         match mapGet st1.dirs r.parent.id with
         | none => throw .corrupt
         | some m =>
           pure (node, { st1 with dirs := mapSet st1.dirs r.parent.id (mapSet m name node.id) })
     | some t =>
       if t.type ≠ .file then throw .eisdir
       else pure (t, st) : Except VfsError (Inode × VFSState))
  let fileNode := fs.1
  let st := fs.2
  let fd := st.nextFd
  let st := { st with nextFd := st.nextFd + 1,
                      handles := mapSet st.handles fd ⟨fd, fileNode.id, 0, mode⟩ }
  let st := { st with inodes := mapSet st.inodes fileNode.id { fileNode with atime := now } }
  let st := markDirtyInode st fileNode.id
  let st := markDirtyDir st r.parent.id
  let p := flushFF d st ds
  return (fd, p.1, p.2)

/-- `read(fd, size)`: slice `[offset, offset+size)` of the payload (clamped),
advance the offset by the bytes returned, update atime. No dirty marking
and no flush happen in the source. -/
def readF (now : Nat) (fd size : Nat) (st : VFSState) :
    Except VfsError (List Nat × VFSState) := do
  match mapGet st.handles fd with
  | none => throw .ebadf
  | some h =>
    if ¬ h.mode.includesR then throw .ebadf
    else
      let node ← getInodeE st h.inodeId
      let data := (node.payload.bind (fun p => p.file)).getD []
      let slice := (data.drop h.offset).take size
      let st := { st with handles := mapSet st.handles fd { h with offset := h.offset + slice.length } }
      let st := { st with inodes := mapSet st.inodes h.inodeId { node with atime := now } }
      return (slice, st)

/-- The new payload `write` builds: a zero buffer of the new length, the old
bytes copied at 0, the written bytes copied at `off` (`Uint8Array.set`). -/
def writeBytes (old : List Nat) (off : Nat) (buf : List Nat) : List Nat :=
  let newLen := max old.length (off + buf.length)
  let base := List.replicate newLen 0
  let withOld := old ++ base.drop old.length
  withOld.take off ++ buf ++ withOld.drop (off + buf.length)

/-- `write(fd, buf)`: reallocate, copy, update size/mtime/atime, mark the
inode and its parent dirty, await the flush, then advance the offset. -/
def writeF {σ : Type} (d : Driver σ) (now : Nat) (fd : Nat) (buf : List Nat)
    (st : VFSState) (ds : σ) : Except VfsError (VFSState × σ) := do
  match mapGet st.handles fd with
  | none => throw .ebadf
  | some h =>
    if ¬ h.mode.includesW then throw .ebadf
    else
      let node ← getInodeE st h.inodeId
      let oldData := (node.payload.bind (fun p => p.file)).getD []
      let newLen := max oldData.length (h.offset + buf.length)
      let newData := writeBytes oldData h.offset buf
      let node2 := { node with payload := some { file := some newData, symlink := none },
                               size := newLen, mtime := now, atime := now }
      let st := { st with inodes := mapSet st.inodes h.inodeId node2 }
      let st := markDirtyInode st node.id
      let st := markDirtyDir st node.parent
      let (st, ds) ← flush d st ds
      let st := { st with handles := mapSet st.handles fd { h with offset := h.offset + buf.length } }
      return (st, ds)

/-- `cleanPayload(fd)`: reset the payload to an empty buffer. -/
def cleanPayload {σ : Type} (d : Driver σ) (now : Nat) (fd : Nat)
    (st : VFSState) (ds : σ) : Except VfsError (VFSState × σ) := do
  match mapGet st.handles fd with
  | none => throw .ebadf
  | some h =>
    if ¬ h.mode.includesW then throw .ebadf
    else
      let node ← getInodeE st h.inodeId
      if node.type ≠ .file then throw .eisdir
      else
        let node2 := { node with payload := some { file := some [], symlink := none },
                                 size := 0, mtime := now, atime := now }
        let st := { st with inodes := mapSet st.inodes h.inodeId node2 }
        let st := markDirtyInode st node.id
        let st := markDirtyDir st node.parent
        flush d st ds

/-- `close(fd)`. -/
def closeF (fd : Nat) (st : VFSState) : Except VfsError VFSState :=
  match mapGet st.handles fd with
  | none => .error .ebadf
  | some _ => .ok { st with handles := mapDelete st.handles fd }

/-- `mkdir(path)`. -/
def mkdir {σ : Type} (d : Driver σ) (now : Nat) (path : String)
    (st : VFSState) (ds : σ) : Except VfsError (VFSState × σ) := do
  let r ← resolve st path
  if r.target.isSome then throw .eexist else
  let name := (pathParts path).getLast?.getD ""
  let dir : Inode :=
    { id := st.nextInodeId, type := .dir, name := some name, parent := r.parent.id,
      mode := 493, uid := 0, gid := 0, ctime := now, mtime := now, atime := now,
      size := 0, links := 2, payload := none }
  let st := { st with inodes := mapSet st.inodes dir.id dir,
                      nextInodeId := st.nextInodeId + 1 }
  let st := { st with dirs := mapSet st.dirs dir.id [] }
  match mapGet st.dirs r.parent.id with
  | none => throw .corrupt
  | some m =>
    let st := { st with dirs := mapSet st.dirs r.parent.id (mapSet m name dir.id) }
    let st := markDirtyInode st dir.id
    let st := markDirtyDir st r.parent.id
    flush d st ds

/-- `touch(path)`. -/
def touch {σ : Type} (d : Driver σ) (now : Nat) (path : String)
    (st : VFSState) (ds : σ) : Except VfsError (VFSState × σ) := do
  let r ← resolve st path
  if r.target.isSome then throw .eexist else
  let name := (pathParts path).getLast?.getD ""
  let fileNode : Inode :=
    { id := st.nextInodeId, type := .file, name := some name, parent := r.parent.id,
      mode := 420, uid := 0, gid := 0, ctime := now, mtime := now, atime := now,
      size := 0, links := 1, payload := some { file := some [], symlink := none } }
  let st := { st with inodes := mapSet st.inodes fileNode.id fileNode,
                      nextInodeId := st.nextInodeId + 1 }
  match mapGet st.dirs r.parent.id with
  | none => throw .corrupt
  | some m =>
    let st := { st with dirs := mapSet st.dirs r.parent.id (mapSet m name fileNode.id) }
    let st := markDirtyInode st fileNode.id
    let st := markDirtyDir st r.parent.id
    flush d st ds

/-- `cd(path)`: target must be a directory; set cwd, update atime, mark the
inode dirty (the parent directory is not marked) and fire a flush. -/
def cd {σ : Type} (d : Driver σ) (now : Nat) (path : String)
    (st : VFSState) (ds : σ) : Except VfsError (VFSState × σ) := do
  let r ← resolve st path
  match r.target with
  | none => throw .enoent
  | some t =>
    if t.type ≠ .dir then throw .enoent
    else
      let st := { st with cwdId := t.id }
      let st := { st with inodes := mapSet st.inodes t.id { t with atime := now } }
      let st := markDirtyInode st t.id
      return (flushFF d st ds)

/-- `ls(path)` with an explicit path argument: list the entries of the target
directory in stored order, skipping literal `.`/`..` names. -/
def lsF (st : VFSState) (path : String) :
    Except VfsError (List (String × InodeType × Nat)) := do
  let r ← resolve st path
  match r.target with
  | none => throw .enoent
  | some t =>
    if t.type ≠ .dir then throw .enoent
    else
      match mapGet st.dirs t.id with
      | none => return []
      | some entries =>
        (entries.filter (fun p => p.1 ≠ "." ∧ p.1 ≠ "..")).mapM
          (fun p => do
            let i ← getInodeE st p.2
            return (p.1, i.type, i.id))

/-- `cat(path)`: target must exist and be a file; re-fetch the inode by the
target's id, error when `payload?.file` is *absent* (in JS an empty
`Uint8Array` is truthy, so an empty buffer passes the check), update atime,
mark dirty, await the flush, and return the buffer. -/
def cat {σ : Type} (d : Driver σ) (now : Nat) (path : String)
    (st : VFSState) (ds : σ) : Except VfsError (List Nat × VFSState × σ) := do
  let r ← resolve st path
  match r.target with
  | none => throw .enoent
  | some t =>
    if t.type ≠ .file then throw .enoent
    else
      let inode ← getInodeE st t.id
      match inode.payload.bind (fun p => p.file) with
      | none => throw .enoent
      | some bytes =>
        let st := { st with inodes := mapSet st.inodes t.id { inode with atime := now } }
        let st := markDirtyInode st inode.id
        let (st, ds) ← flush d st ds
        return (bytes, st, ds)

/-! ### Basic lemmas about the map model and `flush` -/

theorem mapGet_mapSet_self {κ α : Type} [DecidableEq κ] (l : List (κ × α)) (k : κ) (v : α) :
    mapGet (mapSet l k v) k = some v := by
  induction l with
  | nil => simp [mapGet, mapSet]
  | cons p t ih =>
    by_cases h : p.1 = k
    · simp [mapGet, mapSet, h]
    · simp [mapGet, mapSet, h, ih]

theorem mapGet_mapSet_ne {κ α : Type} [DecidableEq κ] (l : List (κ × α)) (k k2 : κ) (v : α)
    (h : k ≠ k2) : mapGet (mapSet l k v) k2 = mapGet l k2 := by
  induction l with
  | nil => simp [mapGet, mapSet, h]
  | cons p t ih =>
    by_cases hp : p.1 = k
    · simp [mapGet, mapSet, hp, h]
    · simp only [mapSet, if_neg hp]
      by_cases hp2 : p.1 = k2 <;> simp [mapGet, hp2, ih]

theorem mapGet_some_mem {κ α : Type} [DecidableEq κ] {l : List (κ × α)} {k : κ} {v : α}
    (h : mapGet l k = some v) : (k, v) ∈ l := by
  induction l with
  | nil => simp [mapGet] at h
  | cons p t ih =>
    by_cases hp : p.1 = k
    · simp only [mapGet, if_pos hp] at h
      cases h
      cases p
      subst hp
      exact List.mem_cons_self _ _
    · simp only [mapGet, if_neg hp] at h
      exact List.mem_cons_of_mem _ (ih h)

theorem mem_mapSet {κ α : Type} [DecidableEq κ] {l : List (κ × α)} {k : κ} {v : α}
    {q : κ × α} (h : q ∈ mapSet l k v) : q = (k, v) ∨ q ∈ l := by
  induction l with
  | nil => simpa [mapSet] using h
  | cons p t ih =>
    by_cases hp : p.1 = k
    · simp only [mapSet, if_pos hp] at h
      rcases List.mem_cons.1 h with h | h
      · exact Or.inl h
      · exact Or.inr (List.mem_cons_of_mem _ h)
    · simp only [mapSet, if_neg hp] at h
      rcases List.mem_cons.1 h with h | h
      · exact Or.inr (h ▸ List.mem_cons_self _ _)
      · rcases ih h with h | h
        · exact Or.inl h
        · exact Or.inr (List.mem_cons_of_mem _ h)

theorem mapGet_none_of_forall {κ α : Type} [DecidableEq κ] {l : List (κ × α)} {k : κ}
    (h : ∀ p ∈ l, p.1 ≠ k) : mapGet l k = none := by
  induction l with
  | nil => rfl
  | cons p t ih =>
    simp only [mapGet, if_neg (h p (List.mem_cons_self _ _))]
    exact ih fun q hq => h q (List.mem_cons_of_mem _ hq)

/-- A successful `flush` changes only the dirty sets. -/
theorem flush_ok_state {σ : Type} (d : Driver σ) (st st' : VFSState) (ds : σ) (ds' : σ)
    (h : flush d st ds = .ok (st', ds')) :
    st'.inodes = st.inodes ∧ st'.dirs = st.dirs ∧ st'.nextInodeId = st.nextInodeId ∧
    st'.nextFd = st.nextFd ∧ st'.handles = st.handles ∧ st'.cwdId = st.cwdId := by
  unfold flush at h
  split at h
  · cases h
    exact ⟨rfl, rfl, rfl, rfl, rfl, rfl⟩
  · split at h
    · cases h
      exact ⟨rfl, rfl, rfl, rfl, rfl, rfl⟩
    · cases h

/-- A fire-and-forget flush changes only the dirty sets. -/
theorem flushFF_state {σ : Type} (d : Driver σ) (st : VFSState) (ds : σ) :
    (flushFF d st ds).1.inodes = st.inodes ∧ (flushFF d st ds).1.dirs = st.dirs ∧
    (flushFF d st ds).1.nextInodeId = st.nextInodeId ∧
    (flushFF d st ds).1.nextFd = st.nextFd ∧
    (flushFF d st ds).1.handles = st.handles ∧ (flushFF d st ds).1.cwdId = st.cwdId := by
  unfold flushFF
  cases hf : flush d st ds with
  | ok p => exact flush_ok_state d st p.1 ds p.2 (by rw [hf])
  | error e => exact ⟨rfl, rfl, rfl, rfl, rfl, rfl⟩

/-! ### Concrete scenarios used by the closed theorems -/

/-- The bytes of `"hello"`. -/
def helloBytes : List Nat := [104, 101, 108, 108, 111]

/-- First VFS instance on a fresh `MemoryDriver`: create `/docs/readme.md`
with content `"hello"` (mkdir, open for write, write, close) and `sync()`;
the result is the final VFS state and the driver state it leaves behind. -/
def scenarioA : Except VfsError (VFSState × Option SerializedFS) := do
  let s ← create MemoryDriver 0 none
  let s ← mkdir MemoryDriver 0 "/docs" s.1 s.2
  let r ← openF MemoryDriver 0 "/docs/readme.md" .w s.1 s.2
  let s ← writeF MemoryDriver 0 r.1 helloBytes r.2.1 r.2.2
  let st ← closeF r.1 s.1
  sync MemoryDriver st s.2

/-- Second VFS instance bootstrapped from the driver state `scenarioA` left:
`cat("/docs/readme.md")`. -/
def scenarioB : Except VfsError (List Nat) := do
  let a ← scenarioA
  let s ← create MemoryDriver 1 a.2
  let r ← cat MemoryDriver 1 "/docs/readme.md" s.1 s.2
  pure r.1

/-- Second VFS instance bootstrapped from a fresh, distinct `MemoryDriver`:
resolve `/docs`. -/
def scenarioFresh : Except VfsError ResolveResult := do
  let s ← create MemoryDriver 1 none
  resolve s.1 "/docs"

/-- Fresh instance, `touch("/a")` (empty payload), then `cat("/a")`. -/
def touchThenCat : Except VfsError (List Nat) := do
  let s ← create MemoryDriver 0 none
  let s ← touch MemoryDriver 0 "/a" s.1 s.2
  let r ← cat MemoryDriver 1 "/a" s.1 s.2
  pure r.1

/-- Fresh instance, `open("/a", "w")` (creates an empty file), then
`cat("/a")`. -/
def openThenCat : Except VfsError (List Nat) := do
  let s ← create MemoryDriver 0 none
  let r ← openF MemoryDriver 0 "/a" .w s.1 s.2
  let c ← cat MemoryDriver 1 "/a" r.2.1 r.2.2
  pure c.1

/-- Fresh instance at time 0, `open("/a","rw")` (which flushes), then
`read(fd, 10)` at time 5: the resulting VFS state paired with the driver
state as of the last flush. -/
def readScenario : Except VfsError (VFSState × Option SerializedFS) := do
  let s ← create MemoryDriver 0 none
  let r ← openF MemoryDriver 0 "/a" .rw s.1 s.2
  let p ← readF 5 r.1 10 r.2.1
  pure (p.2, r.2.2)

/-- The VFS state after `readScenario` (total extraction). -/
def readScenarioSt : VFSState :=
  ((readScenario.toOption).getD (emptyVFS, none)).1

/-- The driver state after `readScenario` (total extraction). -/
def readScenarioDrv : Option SerializedFS :=
  ((readScenario.toOption).getD (emptyVFS, none)).2

/-! ### Claim theorems -/

/-- C2: persistence round-trip. After the first instance creates
`/docs/readme.md` with content `"hello"` and syncs, a second instance
bootstrapped from the same `MemoryDriver` backend returns `"hello"` from
`cat("/docs/readme.md")`; a second instance bootstrapped from a fresh,
distinct backend instead resolves `/docs` with target `undefined`
(and the root as parent). -/
theorem C2_persistence_roundtrip :
    scenarioB = .ok helloBytes ∧ scenarioFresh = .ok ⟨none, rootInode 1⟩ := by
  constructor <;> decide

/-- C1 counterexample: the claim says `cat` of a file whose payload is empty
signals an error; but on the code, after `touch("/a")` (empty payload)
`cat("/a")` returns the empty byte sequence `Except.ok []`, not an error
(in JS `!inode.payload?.file` is false for an empty `Uint8Array`, which is
truthy). The same holds for a file created by `open`. -/
theorem C1_cat_empty_counterexample :
    touchThenCat = .ok [] ∧ openThenCat = .ok [] := by
  constructor <;> decide

/-- C8 counterexample: the claim says every mutating operation — including
`read`, which updates atime — marks the mutated inode dirty and flushes.
After `open("/a","rw")` at time 0 (last flush stored atime 0) and
`read(fd,10)` at time 5, the in-memory inode 2 has atime 5 while the last
flushed snapshot still has atime 0, and both dirty sets are empty: the
atime mutation made by `read` is recorded nowhere. -/
theorem C8_read_counterexample :
    readScenario = .ok (readScenarioSt, readScenarioDrv) ∧
    readScenarioSt.dirtyInodes = [] ∧
    readScenarioSt.dirtyDirs = [] ∧
    (mapGet readScenarioSt.inodes 2).map (fun i => i.atime) = some 5 ∧
    (mapGet (readScenarioDrv.getD emptySnap).inodes 2).map (fun i => i.atime) = some 0 := by
  refine ⟨by decide, by decide, by decide, by decide, by decide⟩

/-- A driver whose persistence always fails; used to observe that `flush`
does not consult the backend when the dirty sets are empty. -/
def failDriver : Driver Nat :=
  { loadFS := fun n => (emptySnap, n),
    flushDelta := fun _ _ => .error "backend down" }

/-- A state with a non-empty dirty set. -/
def dirtySt : VFSState :=
  { emptyVFS with
      inodes := [(1, rootInode 0)], dirs := [(1, [])],
      dirtyInodes := [1], dirtyDirs := [1] }

/-- C7: the flush protocol. With both dirty sets empty, `flush` returns the
state and driver state unchanged for *every* driver — even one whose
flushDelta always fails — so it performs no backend call. Otherwise it calls
the backend with `mkDelta st`; on success both dirty sets are cleared (and
nothing else changes); on failure the error propagates and no new state is
produced, so the caller retains `st` — dirty sets exactly as before — and a
retry rebuilds the very same delta `mkDelta st`. -/
theorem C7_flush_protocol {σ : Type} (d : Driver σ) (st : VFSState) (ds : σ) :
    ((st.dirtyInodes.isEmpty && st.dirtyDirs.isEmpty) = true →
       flush d st ds = .ok (st, ds)) ∧
    ((st.dirtyInodes.isEmpty && st.dirtyDirs.isEmpty) = false →
      (∀ ds2, d.flushDelta (mkDelta st) ds = .ok ds2 →
         flush d st ds = .ok ({ st with dirtyInodes := [], dirtyDirs := [] }, ds2)) ∧
      (∀ e, d.flushDelta (mkDelta st) ds = .error e →
         flush d st ds = .error (.backend e))) := by
  constructor
  · intro h
    unfold flush
    rw [if_pos h]
  · intro h
    constructor
    · intro ds2 h2
      unfold flush
      rw [if_neg (by simp [h]), h2]
    · intro e h2
      unfold flush
      rw [if_neg (by simp [h]), h2]

/-- Witness for C7: with empty dirty sets even the always-failing driver is
never consulted; with a dirty set, the failing driver's error propagates and
the `MemoryDriver` clears the dirty sets on success. -/
theorem C7_flush_protocol_witness :
    (emptyVFS.dirtyInodes.isEmpty && emptyVFS.dirtyDirs.isEmpty) = true ∧
    flush failDriver emptyVFS 0 = .ok (emptyVFS, 0) ∧
    (dirtySt.dirtyInodes.isEmpty && dirtySt.dirtyDirs.isEmpty) = false ∧
    failDriver.flushDelta (mkDelta dirtySt) 0 = .error "backend down" ∧
    flush failDriver dirtySt 0 = .error (.backend "backend down") ∧
    MemoryDriver.flushDelta (mkDelta dirtySt) none = .ok (some (mkDelta dirtySt).fullSnapshot) ∧
    flush MemoryDriver dirtySt none =
      .ok ({ dirtySt with dirtyInodes := [], dirtyDirs := [] },
           some (mkDelta dirtySt).fullSnapshot) := by
  refine ⟨by decide, ?_, by decide, by decide, ?_, by decide, ?_⟩
  · exact (C7_flush_protocol failDriver emptyVFS 0).1 (by decide)
  · exact ((C7_flush_protocol failDriver dirtySt 0).2 (by decide)).2 "backend down" (by decide)
  · exact ((C7_flush_protocol MemoryDriver dirtySt none).2 (by decide)).1
      (some (mkDelta dirtySt).fullSnapshot) (by decide)

/-- C5: resolution stopping at the first missing segment. For any directory
inode `dnode` with entry map `m` and any name `n` that is not a key of `m`
(and is not the special `.`/`..` tokens), the segment walk at `dnode` with
`n` as the next segment stops immediately and returns
`{target: undefined, parent: dnode}`, without error, whatever segments
follow. Hence `resolve(d/n)` returns `{target: undefined, parent: d}`
whenever `n` is the first segment not found. -/
theorem C5_resolve_missing (st : VFSState) (dnode par : Inode)
    (m : List (String × Nat)) (n : String) (rest : List String)
    (hdir : dnode.type = .dir) (hm : mapGet st.dirs dnode.id = some m)
    (hmiss : mapGet m n = none) (h1 : n ≠ ".") (h2 : n ≠ "..") :
    resolveSegs st dnode par (n :: rest) = .ok ⟨none, dnode⟩ := by
  unfold resolveSegs
  rw [if_neg h1, if_neg h2, if_neg (by simp [hdir])]
  simp [child, hm, hmiss]

/-- The VFS/driver pair after `create` then `touch("/a")` on a fresh
`MemoryDriver` (total extraction). -/
def touchedPair : VFSState × Option SerializedFS :=
  (((do
      let s ← create MemoryDriver 0 none
      touch MemoryDriver 0 "/a" s.1 s.2 :
    Except VfsError (VFSState × Option SerializedFS))).toOption).getD (emptyVFS, none)

/-- The root inode of `touchedPair` (total extraction). -/
def touchedRoot : Inode :=
  ((getInodeE touchedPair.1 1).toOption).getD (rootInode 0)

/-- Witness for C5: in the state with only `/a` created, the root directory
has no entry `"b"`, and resolving segment `"b"` at the root stops with
`{target: undefined, parent: root}`; consequently `resolve("/b")` returns
the same. -/
theorem C5_resolve_missing_witness :
    touchedRoot.type = .dir ∧
    mapGet touchedPair.1.dirs touchedRoot.id = some [("a", 2)] ∧
    mapGet [("a", (2 : Nat))] "b" = none ∧
    resolveSegs touchedPair.1 touchedRoot touchedRoot ["b"] = .ok ⟨none, touchedRoot⟩ ∧
    resolve touchedPair.1 "/b" = .ok ⟨none, touchedRoot⟩ := by
  refine ⟨by decide, by decide, by decide, ?_, by decide⟩
  exact C5_resolve_missing touchedPair.1 touchedRoot touchedRoot [("a", 2)] "b" []
    (by decide) (by decide) (by decide) (by decide) (by decide)

/-- `cd("..")` repeated `n` times. -/
def cdIter {σ : Type} (d : Driver σ) (now : Nat) :
    Nat → VFSState → σ → Except VfsError (VFSState × σ)
  | 0, st, ds => .ok (st, ds)
  | Nat.succ k, st, ds =>
    match cd d now ".." st ds with
    | .error e => .error e
    | .ok p => cdIter d now k p.1 p.2

/-- With the cwd at the root (inode 1, parent 0), `resolve("..")` returns the
root as both target and parent, touching no other inode. -/
theorem resolve_dotdot_at_root (st : VFSState) (root : Inode)
    (hcwd : st.cwdId = 1) (hr : mapGet st.inodes 1 = some root)
    (hp : root.parent = 0) :
    resolve st ".." = .ok ⟨some root, root⟩ := by
  have e1 : (if (".." : String) = "/" then "/" else dropTrailingSlashes "..") = ".." := by
    decide
  have e2 : startsWithSlash ".." = false := by decide
  have e3 : pathParts ".." = [".."] := by decide
  unfold resolve
  rw [if_neg (show ¬(".." : String) = "" by decide)]
  simp only [e1, e2, Bool.false_eq_true, if_false, hcwd]
  unfold getInodeE
  rw [hr]
  simp only [e3]
  rw [if_neg (by simp)]
  unfold resolveSegs
  rw [if_neg (by decide), if_pos (show (".." : String) = ".." from rfl), if_pos hp]
  unfold resolveSegs
  rfl

/-- `Except.bind` on a success is application (strips one `do` step). -/
theorem bind_ok_eq {ε α β : Type} (a : α) (f : α → Except ε β) :
    (Except.ok a >>= f) = f a := rfl

/-- `Except.bind` on a failure propagates it (strips one `do` step). -/
theorem bind_error_eq {ε α β : Type} (e : ε) (f : α → Except ε β) :
    ((Except.error e : Except ε α) >>= f) = Except.error e := rfl

/-- `cd("..")` from the root succeeds, keeps the cwd at the root, and only
bumps the root's atime. -/
theorem cd_dotdot_root {σ : Type} (d : Driver σ) (now : Nat) (st : VFSState) (ds : σ)
    (root : Inode) (hcwd : st.cwdId = 1) (hr : mapGet st.inodes 1 = some root)
    (hid : root.id = 1) (hp : root.parent = 0) (ht : root.type = .dir) :
    ∃ st' ds', cd d now ".." st ds = .ok (st', ds') ∧ st'.cwdId = 1 ∧
      mapGet st'.inodes 1 = some { root with atime := now } := by
  have hres := resolve_dotdot_at_root st root hcwd hr hp
  have hcd : cd d now ".." st ds =
      Except.ok (flushFF d (markDirtyInode
        { st with cwdId := root.id,
                  inodes := mapSet st.inodes root.id { root with atime := now } } root.id) ds) := by
    unfold cd
    rw [hres, bind_ok_eq]
    simp only [ht]
    rfl
  set st2 := markDirtyInode
    { st with cwdId := root.id,
              inodes := mapSet st.inodes root.id { root with atime := now } } root.id with hst2
  refine ⟨(flushFF d st2 ds).1, (flushFF d st2 ds).2, by rw [hcd], ?_, ?_⟩
  · rw [(flushFF_state d st2 ds).2.2.2.2.2]
    simp [hst2, markDirtyInode, hid]
  · rw [(flushFF_state d st2 ds).1]
    simp only [hst2, markDirtyInode]
    rw [hid]
    exact mapGet_mapSet_self _ _ _

/-- C6: the `..` clamp at the root. First, for any state and any cursor whose
parent id is 0 (the root), a `..` segment leaves the segment walk exactly
where it was — it neither errors nor dereferences inode 0, whose presence is
never consulted. Second, starting from any state whose cwd is the root
(inode 1, a directory with parent 0), any number `n` of repeated `cd("..")`
calls succeeds and leaves the cwd at the root. -/
theorem C6_dotdot_clamped {σ : Type} (d : Driver σ) :
    (∀ st (cur par : Inode) rest, cur.parent = 0 →
       resolveSegs st cur par (".." :: rest) = resolveSegs st cur par rest) ∧
    (∀ now n st (ds : σ) root, st.cwdId = 1 → mapGet st.inodes 1 = some root →
       root.id = 1 → root.parent = 0 → root.type = .dir →
       ∃ st' ds', cdIter d now n st ds = .ok (st', ds') ∧ st'.cwdId = 1) := by
  constructor
  · intro st cur par rest h
    conv_lhs => rw [resolveSegs]
    rw [if_neg (by decide), if_pos (show (".." : String) = ".." from rfl), if_pos h]
  · intro now n
    induction n with
    | zero =>
      intro st ds root h1 _ _ _ _
      exact ⟨st, ds, rfl, h1⟩
    | succ k ih =>
      intro st ds root h1 h2 h3 h4 h5
      obtain ⟨st1, ds1, hcd, hcwd1, hroot1⟩ := cd_dotdot_root d now st ds root h1 h2 h3 h4 h5
      obtain ⟨st2, ds2, hiter, hcwd2⟩ := ih st1 ds1 { root with atime := now } hcwd1 hroot1 h3 h4 h5
      refine ⟨st2, ds2, ?_, hcwd2⟩
      unfold cdIter
      rw [hcd]
      exact hiter

/-- Witness for C6: in the state with only `/a` created, the root clamps:
a `..` segment at the root is a no-op of the walk, and three repeated
`cd("..")` calls from the root succeed and leave the cwd at the root. -/
theorem C6_dotdot_clamped_witness :
    touchedRoot.parent = 0 ∧
    resolveSegs touchedPair.1 touchedRoot touchedRoot [".."] =
      resolveSegs touchedPair.1 touchedRoot touchedRoot [] ∧
    (∃ st' ds', cdIter MemoryDriver 7 3 touchedPair.1 touchedPair.2 = .ok (st', ds') ∧
       st'.cwdId = 1) := by
  refine ⟨by decide, ?_, ?_⟩
  · exact (C6_dotdot_clamped MemoryDriver).1 touchedPair.1 touchedRoot touchedRoot []
      (by decide)
  · exact (C6_dotdot_clamped MemoryDriver).2 7 3 touchedPair.1 touchedPair.2 touchedRoot
      (by decide) (by decide) (by decide) (by decide) (by decide)

/-- C8 amended: `read`, unlike the other mutating Facade operations, performs
no dirty-marking and no flush. A successful `read` leaves both dirty sets
exactly unchanged (and, having no driver argument at all, cannot call the
backend); its only store mutation is setting the accessed inode's atime.
So an atime change made by `read` is not recorded in the dirty sets. -/
theorem C8_read_amended (now fd n : Nat) (st : VFSState) (bytes : List Nat) (st' : VFSState)
    (hok : readF now fd n st = .ok (bytes, st')) :
    st'.dirtyInodes = st.dirtyInodes ∧ st'.dirtyDirs = st.dirtyDirs ∧
    ∃ h node, mapGet st.handles fd = some h ∧ mapGet st.inodes h.inodeId = some node ∧
      st'.inodes = mapSet st.inodes h.inodeId { node with atime := now } := by
  unfold readF getInodeE at hok
  split at hok
  · cases hok
  next h hh =>
    split at hok
    · cases hok
    next hr =>
      split at hok
      next node hn =>
        rw [bind_ok_eq] at hok
        cases hok
        exact ⟨rfl, rfl, h, node, hh, hn, rfl⟩
      next hn =>
        rw [bind_error_eq] at hok
        cases hok

/-- The fd, VFS state and driver state after `create` then `open("/a","rw")`
at time 0 on a fresh `MemoryDriver` (total extractions). -/
def openedTriple : Nat × VFSState × Option SerializedFS :=
  (((do
      let s ← create MemoryDriver 0 none
      openF MemoryDriver 0 "/a" .rw s.1 s.2 :
    Except VfsError (Nat × VFSState × Option SerializedFS))).toOption).getD (0, emptyVFS, none)

/-- The result of `read(fd, 10)` at time 5 in the opened state. -/
def openedReadRes : List Nat × VFSState :=
  ((readF 5 openedTriple.1 10 openedTriple.2.1).toOption).getD ([], emptyVFS)

/-- Witness for the amended C8, at the concrete opened-file state. -/
theorem C8_read_amended_witness :
    readF 5 openedTriple.1 10 openedTriple.2.1 = .ok (openedReadRes.1, openedReadRes.2) ∧
    (openedReadRes.2.dirtyInodes = openedTriple.2.1.dirtyInodes ∧
     openedReadRes.2.dirtyDirs = openedTriple.2.1.dirtyDirs ∧
     ∃ h node, mapGet openedTriple.2.1.handles openedTriple.1 = some h ∧
       mapGet openedTriple.2.1.inodes h.inodeId = some node ∧
       openedReadRes.2.inodes =
         mapSet openedTriple.2.1.inodes h.inodeId { node with atime := 5 }) := by
  refine ⟨by decide, ?_⟩
  exact C8_read_amended 5 openedTriple.1 10 openedTriple.2.1 openedReadRes.1 openedReadRes.2
    (by decide)

/-- With a driver whose flushDelta always succeeds, `flush` always succeeds. -/
theorem flush_ok_of_driver_ok {σ : Type} (d : Driver σ) (st : VFSState) (ds : σ)
    (hflush : ∀ delta ds0, ∃ ds1, d.flushDelta delta ds0 = .ok ds1) :
    ∃ st' ds', flush d st ds = .ok (st', ds') := by
  unfold flush
  split
  · exact ⟨st, ds, rfl⟩
  · obtain ⟨ds1, h1⟩ := hflush (mkDelta st) ds
    rw [h1]
    exact ⟨_, _, rfl⟩

/-- C1 amended: `cat` does *not* signal an error on an empty payload. For a
file target whose inode carries a byte buffer — possibly of zero length, as
for every file created by `touch` or `open` — `cat` returns that buffer
(when the backend accepts the flush). `cat` errors with `ENOENT` only when
the inode's `payload?.file` field is entirely absent, because in JS the
check `!inode.payload?.file` is false for an empty `Uint8Array`. -/
theorem C1_cat_empty_amended {σ : Type} (d : Driver σ) (now : Nat) (path : String)
    (st : VFSState) (ds : σ) (t p node : Inode)
    (hres : resolve st path = .ok ⟨some t, p⟩) (ht : t.type = .file)
    (hn : mapGet st.inodes t.id = some node) :
    (∀ bytes, node.payload.bind (fun pl => pl.file) = some bytes →
      (∀ delta ds0, ∃ ds1, d.flushDelta delta ds0 = .ok ds1) →
      ∃ st' ds', cat d now path st ds = .ok (bytes, st', ds')) ∧
    (node.payload.bind (fun pl => pl.file) = none →
      cat d now path st ds = .error .enoent) := by
  constructor
  · intro bytes hb hflush
    unfold cat getInodeE
    rw [hres, bind_ok_eq]
    simp only [ht, hn, hb, ne_eq, not_true_eq_false, if_false, bind_ok_eq]
    obtain ⟨st3, ds3, hf⟩ := flush_ok_of_driver_ok d
      (markDirtyInode { st with inodes := mapSet st.inodes t.id { node with atime := now } }
        node.id) ds hflush
    rw [hf, bind_ok_eq]
    exact ⟨st3, ds3, rfl⟩
  · intro hb
    unfold cat getInodeE
    rw [hres, bind_ok_eq]
    simp only [ht, hn, hb, ne_eq, not_true_eq_false, if_false, bind_ok_eq]
    rfl

/-- The target inode `resolve` finds for `/a` in `touchedPair` (extraction). -/
def touchedTarget : Inode :=
  ((((resolve touchedPair.1 "/a").toOption).getD ⟨none, rootInode 0⟩).target).getD (rootInode 0)

/-- The parent inode `resolve` finds for `/a` in `touchedPair` (extraction). -/
def touchedParent : Inode :=
  (((resolve touchedPair.1 "/a").toOption).getD ⟨none, rootInode 0⟩).parent

/-- The stored inode behind `touchedTarget` (extraction). -/
def touchedNode : Inode :=
  ((getInodeE touchedPair.1 touchedTarget.id).toOption).getD (rootInode 0)

/-- Witness for the amended C1: the freshly touched `/a` has an empty byte
buffer and `cat` returns `[]`, not an error. -/
theorem C1_cat_empty_amended_witness :
    resolve touchedPair.1 "/a" = .ok ⟨some touchedTarget, touchedParent⟩ ∧
    touchedTarget.type = .file ∧
    mapGet touchedPair.1.inodes touchedTarget.id = some touchedNode ∧
    touchedNode.payload.bind (fun pl => pl.file) = some [] ∧
    (∃ st' ds', cat MemoryDriver 1 "/a" touchedPair.1 touchedPair.2 = .ok ([], st', ds')) := by
  refine ⟨by decide, by decide, by decide, by decide, ?_⟩
  exact (C1_cat_empty_amended MemoryDriver 1 "/a" touchedPair.1 touchedPair.2
    touchedTarget touchedParent touchedNode (by decide) (by decide) (by decide)).1 []
    (by decide) (fun delta ds0 => ⟨some delta.fullSnapshot, rfl⟩)

/-- `Except.bind` on a `pure` is application (strips one `do` step). -/
theorem bind_pure_eq {ε α β : Type} (a : α) (f : α → Except ε β) :
    ((pure a : Except ε α) >>= f) = f a := rfl

/-- C10: every successful `open(path, mode)` returns `fd = nextFd` and
allocates a handle at that fd whose offset is 0 (there is no append
positioning), whatever the mode and whether or not the target existed; and
when the target file already exists, the only change `open` makes to it is
setting its atime — payload and size are left unchanged. -/
theorem C10_open_offset_zero {σ : Type} (d : Driver σ) (now : Nat) (path : String)
    (mode : FileOpenMode) (st : VFSState) (ds : σ) (fd : Nat) (st' : VFSState) (ds' : σ)
    (hok : openF d now path mode st ds = .ok (fd, st', ds')) :
    fd = st.nextFd ∧
    (∃ iid, mapGet st'.handles fd = some ⟨fd, iid, 0, mode⟩) ∧
    (∀ t q, resolve st path = .ok ⟨some t, q⟩ →
      ∃ node2, mapGet st'.inodes t.id = some node2 ∧
        node2.payload = t.payload ∧ node2.size = t.size ∧ node2.atime = now) := by
  unfold openF at hok
  cases hres : resolve st path with
  | error e =>
    rw [hres, bind_error_eq] at hok
    cases hok
  | ok r =>
    rw [hres, bind_ok_eq] at hok
    split at hok
    · cases hok
    next hpt =>
      split at hok
      next heq =>
        -- target missing: create branch
        split at hok
        · cases hok
        next hw =>
          dsimp only [] at hok
          split at hok
          · cases hok
          next m hm =>
            rw [bind_pure_eq] at hok
            cases hok
            refine ⟨rfl, ⟨st.nextInodeId, ?_⟩, ?_⟩
            · rw [(flushFF_state _ _ _).2.2.2.2.1]
              simp only [markDirtyInode, markDirtyDir]
              exact mapGet_mapSet_self _ _ _
            · intro t q hres2
              injection hres2 with hr2
              subst hr2
              simp at heq
      next t heq =>
        split at hok
        · cases hok
        next htf =>
          rw [bind_pure_eq] at hok
          cases hok
          refine ⟨rfl, ⟨t.id, ?_⟩, ?_⟩
          · rw [(flushFF_state _ _ _).2.2.2.2.1]
            simp only [markDirtyInode, markDirtyDir]
            exact mapGet_mapSet_self _ _ _
          · intro t2 q hres2
            injection hres2 with hr2
            subst hr2
            simp only [] at heq
            cases heq
            rw [(flushFF_state _ _ _).1]
            simp only [markDirtyInode, markDirtyDir]
            exact ⟨_, mapGet_mapSet_self _ _ _, rfl, rfl, rfl⟩

/-- The result of `open("/a","r")` at time 9 on the touched state, where
`/a` already exists (total extraction). -/
def openExisting : Nat × VFSState × Option SerializedFS :=
  ((openF MemoryDriver 9 "/a" .r touchedPair.1 touchedPair.2).toOption).getD
    (0, emptyVFS, none)

/-- Witness for C10: opening the already-existing empty file `/a` in read
mode allocates a handle at offset 0 and leaves the file's payload and size
unchanged. -/
theorem C10_open_offset_zero_witness :
    openF MemoryDriver 9 "/a" FileOpenMode.r touchedPair.1 touchedPair.2 =
      .ok (openExisting.1, openExisting.2.1, openExisting.2.2) ∧
    (openExisting.1 = touchedPair.1.nextFd ∧
     (∃ iid, mapGet openExisting.2.1.handles openExisting.1 =
        some ⟨openExisting.1, iid, 0, FileOpenMode.r⟩) ∧
     (∀ t q, resolve touchedPair.1 "/a" = .ok ⟨some t, q⟩ →
       ∃ node2, mapGet openExisting.2.1.inodes t.id = some node2 ∧
         node2.payload = t.payload ∧ node2.size = t.size ∧ node2.atime = 9)) := by
  refine ⟨by decide, ?_⟩
  exact C10_open_offset_zero MemoryDriver 9 "/a" .r touchedPair.1 touchedPair.2
    openExisting.1 openExisting.2.1 openExisting.2.2 (by decide)

section WriteBytes

variable (old buf : List Nat) (off : Nat)

/-- The zero-extended old payload `write` starts from. -/
def withOldData (old : List Nat) (off : Nat) (buf : List Nat) : List Nat :=
  old ++ (List.replicate (max old.length (off + buf.length)) 0).drop old.length

theorem withOldData_length :
    (withOldData old off buf).length = max old.length (off + buf.length) := by
  simp [withOldData]

theorem writeBytes_eq :
    writeBytes old off buf =
      (withOldData old off buf).take off ++ buf ++
      (withOldData old off buf).drop (off + buf.length) := by
  simp [writeBytes, withOldData]

theorem withOldData_getElem_lt (i : Nat) (h : i < old.length) :
    (withOldData old off buf)[i]? = old[i]? :=
  List.getElem?_append_left h

theorem withOldData_getElem_ge (i : Nat) (h1 : old.length ≤ i)
    (h2 : i < max old.length (off + buf.length)) :
    (withOldData old off buf)[i]? = some 0 := by
  unfold withOldData
  rw [List.getElem?_append_right h1, List.getElem?_drop,
    List.getElem?_replicate_of_lt (by omega)]

theorem take_withOldData_length (h : off ≤ max old.length (off + buf.length)) :
    ((withOldData old off buf).take off).length = off := by
  rw [List.length_take, withOldData_length]
  omega

theorem writeBytes_length :
    (writeBytes old off buf).length = max old.length (off + buf.length) := by
  rw [writeBytes_eq]
  simp [withOldData_length, take_withOldData_length old buf off (by omega)]
  omega

theorem writeBytes_getElem_written (j : Nat) (hj : j < buf.length) :
    (writeBytes old off buf)[off + j]? = buf[j]? := by
  rw [writeBytes_eq]
  have hA : ((withOldData old off buf).take off).length = off :=
    take_withOldData_length old buf off (by omega)
  have h1 : off + j < (((withOldData old off buf).take off) ++ buf).length := by
    simp [hA]; omega
  rw [List.getElem?_append_left h1, List.getElem?_append_right (by omega : ((withOldData old off buf).take off).length ≤ off + j)]
  congr 1
  omega

theorem writeBytes_getElem_low (i : Nat) (h1 : i < off) (h2 : i < old.length) :
    (writeBytes old off buf)[i]? = old[i]? := by
  rw [writeBytes_eq]
  have hA : ((withOldData old off buf).take off).length = off :=
    take_withOldData_length old buf off (by omega)
  have hi : i < (((withOldData old off buf).take off) ++ buf).length := by
    simp [hA]; omega
  rw [List.getElem?_append_left hi, List.getElem?_append_left (by omega : i < ((withOldData old off buf).take off).length),
    List.getElem?_take_of_lt h1]
  exact withOldData_getElem_lt old buf off i h2

theorem writeBytes_getElem_gap (i : Nat) (h1 : old.length ≤ i) (h2 : i < off) :
    (writeBytes old off buf)[i]? = some 0 := by
  rw [writeBytes_eq]
  have hA : ((withOldData old off buf).take off).length = off :=
    take_withOldData_length old buf off (by omega)
  have hi : i < (((withOldData old off buf).take off) ++ buf).length := by
    simp [hA]; omega
  rw [List.getElem?_append_left hi, List.getElem?_append_left (by omega : i < ((withOldData old off buf).take off).length),
    List.getElem?_take_of_lt h2]
  exact withOldData_getElem_ge old buf off i h1 (by omega)

theorem writeBytes_getElem_high (i : Nat) (h1 : off + buf.length ≤ i) (h2 : i < old.length) :
    (writeBytes old off buf)[i]? = old[i]? := by
  rw [writeBytes_eq]
  have hA : ((withOldData old off buf).take off).length = off :=
    take_withOldData_length old buf off (by omega)
  have hAB : (((withOldData old off buf).take off) ++ buf).length = off + buf.length := by
    simp [hA]
  rw [List.getElem?_append_right (by omega : (((withOldData old off buf).take off) ++ buf).length ≤ i),
    List.getElem?_drop]
  rw [hAB]
  have : off + buf.length + (i - (off + buf.length)) = i := by omega
  rw [this]
  exact withOldData_getElem_lt old buf off i h2

theorem writeBytes_drop_take :
    ((writeBytes old off buf).drop off).take buf.length = buf := by
  rw [writeBytes_eq, List.append_assoc]
  have hA : ((withOldData old off buf).take off).length = off :=
    take_withOldData_length old buf off (by omega)
  generalize (withOldData old off buf).drop (off + buf.length) = C
  generalize hg : (withOldData old off buf).take off = A
  rw [hg] at hA
  rw [← hA, List.drop_left, List.take_left]

end WriteBytes



/-- Inverting a successful `Except.bind`. -/
theorem bind_eq_ok {ε α β : Type} {x : Except ε α} {f : α → Except ε β} {b : β}
    (h : (x >>= f) = .ok b) : ∃ a, x = .ok a ∧ f a = .ok b := by
  cases x with
  | ok a => exact ⟨a, rfl, h⟩
  | error e => cases h

/-- Postcondition of a successful `write`: the handle's inode now carries the
`writeBytes` payload with updated size/mtime/atime, and the handle's offset
advanced by the written length. -/
theorem writeF_ok_state {σ : Type} (d : Driver σ) (now fd : Nat) (buf : List Nat)
    (st : VFSState) (ds : σ) (st' : VFSState) (ds' : σ) (h : FileHandle) (node : Inode)
    (hh : mapGet st.handles fd = some h)
    (hn : mapGet st.inodes h.inodeId = some node)
    (hok : writeF d now fd buf st ds = .ok (st', ds')) :
    mapGet st'.inodes h.inodeId = some
      ({ node with
          payload := some
            { file := some
                (writeBytes ((node.payload.bind (fun p => p.file)).getD []) h.offset buf),
              symlink := none },
          size := max ((node.payload.bind (fun p => p.file)).getD []).length
            (h.offset + buf.length),
          mtime := now, atime := now }) ∧
    mapGet st'.handles fd = some { h with offset := h.offset + buf.length } := by
  unfold writeF getInodeE at hok
  split at hok
  · cases hok
  next h2 heqh =>
    rw [hh] at heqh
    injection heqh with heqh
    subst heqh
    split at hok
    · cases hok
    next =>
      split at hok
      next node2 heqn =>
        rw [hn] at heqn
        injection heqn with heqn
        subst heqn
        rw [bind_ok_eq] at hok
        dsimp only [] at hok
        obtain ⟨⟨stY, dsY⟩, hfl, hok2⟩ := bind_eq_ok hok
        dsimp only [] at hok2
        cases hok2
        have hfs := flush_ok_state _ _ _ _ _ hfl
        constructor
        · show mapGet stY.inodes h.inodeId = _
          rw [hfs.1]
          simp only [markDirtyInode, markDirtyDir]
          exact mapGet_mapSet_self _ _ _
        · exact mapGet_mapSet_self _ _ _
      next heqn =>
        rw [hn] at heqn
        cases heqn

/-- C3: `write` semantics. For a handle with write capability at offset
`h.offset` over a file whose payload `old` has length `L`, writing `buf`
yields a payload of length `max L (h.offset + len buf)` in which the bytes
of `[0, L)` outside the written window keep their old values, the window
`[h.offset, h.offset + len buf)` holds exactly `buf`, the gap between `L`
and `h.offset` is zero-filled, `size` is set to the new length (and
mtime/atime to now), and the handle's offset advances by `len buf`. -/
theorem C3_write_semantics {σ : Type} (d : Driver σ) (now fd : Nat) (buf : List Nat)
    (st : VFSState) (ds : σ) (st' : VFSState) (ds' : σ) (h : FileHandle) (node : Inode)
    (old : List Nat)
    (hh : mapGet st.handles fd = some h) (hw : h.mode.includesW = true)
    (hn : mapGet st.inodes h.inodeId = some node)
    (hold : old = (node.payload.bind (fun p => p.file)).getD [])
    (hok : writeF d now fd buf st ds = .ok (st', ds')) :
    ∃ node2, mapGet st'.inodes h.inodeId = some node2 ∧
      node2.payload = some { file := some (writeBytes old h.offset buf), symlink := none } ∧
      node2.size = max old.length (h.offset + buf.length) ∧
      node2.mtime = now ∧ node2.atime = now ∧
      (writeBytes old h.offset buf).length = max old.length (h.offset + buf.length) ∧
      (∀ j, j < buf.length → (writeBytes old h.offset buf)[h.offset + j]? = buf[j]?) ∧
      (∀ i, i < old.length → i < h.offset → (writeBytes old h.offset buf)[i]? = old[i]?) ∧
      (∀ i, i < old.length → h.offset + buf.length ≤ i →
         (writeBytes old h.offset buf)[i]? = old[i]?) ∧
      (∀ i, old.length ≤ i → i < h.offset → (writeBytes old h.offset buf)[i]? = some 0) ∧
      mapGet st'.handles fd = some { h with offset := h.offset + buf.length } := by
  obtain ⟨hmg, hhd⟩ := writeF_ok_state d now fd buf st ds st' ds' h node hh hn hok
  subst hold
  exact ⟨_, hmg, rfl, rfl, rfl, rfl,
    writeBytes_length _ _ _,
    (fun j hj => writeBytes_getElem_written _ _ _ j hj),
    (fun i h1 h2 => writeBytes_getElem_low _ _ _ i h2 h1),
    (fun i h1 h2 => writeBytes_getElem_high _ _ _ i h2 h1),
    (fun i h1 h2 => writeBytes_getElem_gap _ _ _ i h1 h2),
    hhd⟩

/-- C4: write/read round-trip. After writing `buf` (any byte sequence,
including the empty one) through a read-write handle positioned at offset
`h.offset`, reading `len buf` bytes from the same handle at that same
offset (the handle's cursor restored to `h`) returns exactly `buf`. -/
theorem C4_write_read_roundtrip {σ : Type} (d : Driver σ) (now now2 fd : Nat) (buf : List Nat)
    (st : VFSState) (ds : σ) (st' : VFSState) (ds' : σ) (h : FileHandle) (node : Inode)
    (hh : mapGet st.handles fd = some h) (hm : h.mode = .rw)
    (hn : mapGet st.inodes h.inodeId = some node)
    (hok : writeF d now fd buf st ds = .ok (st', ds')) :
    ∃ r, readF now2 fd buf.length { st' with handles := mapSet st'.handles fd h } = .ok r ∧
      r.1 = buf := by
  obtain ⟨hmg, hhd⟩ := writeF_ok_state d now fd buf st ds st' ds' h node hh hn hok
  cases hres : readF now2 fd buf.length { st' with handles := mapSet st'.handles fd h } with
  | error e =>
    exfalso
    unfold readF getInodeE at hres
    rw [mapGet_mapSet_self] at hres
    dsimp only [] at hres
    rw [hm] at hres
    dsimp only [FileOpenMode.includesR] at hres
    rw [if_neg (by simp)] at hres
    rw [hmg, bind_ok_eq] at hres
    dsimp only [] at hres
    cases hres
  | ok r =>
    refine ⟨r, rfl, ?_⟩
    unfold readF getInodeE at hres
    rw [mapGet_mapSet_self] at hres
    dsimp only [] at hres
    rw [hm] at hres
    dsimp only [FileOpenMode.includesR] at hres
    rw [if_neg (by simp)] at hres
    rw [hmg, bind_ok_eq] at hres
    dsimp only [] at hres
    cases hres
    show List.take buf.length (List.drop h.offset
      (writeBytes ((node.payload.bind fun p => p.file).getD []) h.offset buf)) = buf
    exact writeBytes_drop_take _ _ _


/-- The empty file inode used by the hand-built write/read witness states. -/
def emptyFileNode : Inode :=
  { id := 2, type := .file, mode := 420, uid := 0, gid := 0, ctime := 0, mtime := 0,
    atime := 0, size := 0, links := 1, payload := some { file := some [], symlink := none },
    parent := 1, name := some "f" }

/-- A state holding the empty file `/f` with an open read-write handle at
fd 7 positioned at offset 5 (as after five bytes have been written). -/
def offsetSt : VFSState :=
  { emptyVFS with
      inodes := [(1, rootInode 0), (2, emptyFileNode)],
      dirs := [(1, [("f", 2)])],
      nextInodeId := 3, nextFd := 8,
      handles := [(7, ⟨7, 2, 5, .rw⟩)] }

/-- The state after writing `[1, 2]` at offset 5 into `/f` (extraction). -/
def offsetWriteRes : VFSState × Option SerializedFS :=
  ((writeF MemoryDriver 1 7 [1, 2] offsetSt none).toOption).getD (emptyVFS, none)

/-- Witness for C3, at the spec's own example: writing `[1, 2]` at offset 5
into an initially empty file yields the 7-byte payload `[0,0,0,0,0,1,2]`,
size 7, and the handle advanced to offset 7. -/
theorem C3_write_semantics_witness :
    writeBytes [] 5 [1, 2] = [0, 0, 0, 0, 0, 1, 2] ∧
    writeF MemoryDriver 1 7 [1, 2] offsetSt none = .ok offsetWriteRes ∧
    (∃ node2, mapGet offsetWriteRes.1.inodes 2 = some node2 ∧
       node2.payload = some { file := some (writeBytes [] 5 [1, 2]), symlink := none } ∧
       node2.size = 7 ∧
       mapGet offsetWriteRes.1.handles 7 = some ⟨7, 2, 7, FileOpenMode.rw⟩) := by
  refine ⟨by decide, by decide, ?_⟩
  obtain ⟨node2, hmg, hpl, hsz, hmt, hat, hlen, hwr, hlo, hhi, hgap, hhd⟩ :=
    C3_write_semantics MemoryDriver 1 7 [1, 2] offsetSt none offsetWriteRes.1 offsetWriteRes.2
      ⟨7, 2, 5, .rw⟩ emptyFileNode [] (by decide) (by decide) (by decide) (by decide) (by decide)
  refine ⟨node2, hmg, hpl, ?_, hhd⟩
  rw [hsz]
  decide

/-- Witness for C4: write `[1, 2]` at offset 5, restore the handle's cursor
to offset 5, read 2 bytes — exactly `[1, 2]` comes back. -/
theorem C4_write_read_roundtrip_witness :
    writeF MemoryDriver 1 7 [1, 2] offsetSt none = .ok offsetWriteRes ∧
    (∃ r, readF 2 7 2
        { offsetWriteRes.1 with
            handles := mapSet offsetWriteRes.1.handles 7 ⟨7, 2, 5, FileOpenMode.rw⟩ } =
        .ok r ∧ r.1 = [1, 2]) := by
  refine ⟨by decide, ?_⟩
  exact C4_write_read_roundtrip MemoryDriver 1 2 7 [1, 2] offsetSt none
    offsetWriteRes.1 offsetWriteRes.2 ⟨7, 2, 5, .rw⟩ emptyFileNode
    (by decide) (by decide) (by decide) (by decide)


/-- The id/counter store invariant: every stored pair's inode carries its own
key as `id`, and every key is strictly below the allocation counter. -/
def IdInv (st : VFSState) : Prop :=
  ∀ p ∈ st.inodes, p.2.id = p.1 ∧ p.1 < st.nextInodeId

theorem idInv_set {next : Nat} {l : List (Nat × Inode)}
    (hl : ∀ p ∈ l, p.2.id = p.1 ∧ p.1 < next)
    {k : Nat} {v : Inode} (hv : v.id = k) (hk : k < next) :
    ∀ p ∈ mapSet l k v, p.2.id = p.1 ∧ p.1 < next := by
  intro p hp
  rcases mem_mapSet hp with h | h
  · subst h
    exact ⟨hv, hk⟩
  · exact hl p h

theorem le_foldl_max (l : List Nat) (b : Nat) :
    (∀ a ∈ l, a ≤ l.foldl max b) ∧ b ≤ l.foldl max b := by
  induction l generalizing b with
  | nil => exact ⟨by simp, le_refl b⟩
  | cons x t ih =>
    refine ⟨?_, ?_⟩
    · intro a ha
      rcases List.mem_cons.1 ha with rfl | ha
      · exact le_trans (le_max_right b a) (ih (max b a)).2
      · exact (ih (max b x)).1 a ha
    · exact le_trans (le_max_left b x) (ih (max b x)).2

theorem getInodeE_ok_mem {st : VFSState} {i : Nat} {t : Inode}
    (h : getInodeE st i = .ok t) : mapGet st.inodes i = some t := by
  unfold getInodeE at h
  split at h
  · injection h with h
    subst h
    assumption
  · cases h

theorem child_some_mem {st : VFSState} {dirId : Nat} {seg : String} {c : Inode}
    (h : child st dirId seg = some c) : ∃ k, mapGet st.inodes k = some c := by
  unfold child at h
  split at h
  · cases h
  · split at h
    · cases h
    · exact ⟨_, h⟩

theorem resolveSegs_mem (st : VFSState) (segs : List String) :
    ∀ cur par t p, resolveSegs st cur par segs = .ok ⟨some t, p⟩ →
      (∃ k, mapGet st.inodes k = some cur) → ∃ k, mapGet st.inodes k = some t := by
  induction segs with
  | nil =>
    intro cur par t p h hc
    simp only [resolveSegs, Except.ok.injEq, ResolveResult.mk.injEq, Option.some.injEq] at h
    obtain ⟨h1, h2⟩ := h
    subst h1
    exact hc
  | cons seg rest ih =>
    intro cur par t p h hc
    unfold resolveSegs at h
    split at h
    · exact ih cur par t p h hc
    · split at h
      · split at h
        · exact ih cur par t p h hc
        · split at h
          · cases h
          next p1 hp1 =>
            split at h
            · cases h
            next parent2 hp2 =>
              exact ih p1 parent2 t p h ⟨_, getInodeE_ok_mem hp1⟩
      · split at h
        · cases h
        · split at h
          next hchild => cases h
          next c hchild => exact ih c cur t p h (child_some_mem hchild)

theorem resolve_target_mem (st : VFSState) (path : String) (t p : Inode)
    (h : resolve st path = .ok ⟨some t, p⟩) : ∃ k, mapGet st.inodes k = some t := by
  by_cases hpe : path = ""
  · rw [hpe] at h
    rw [show resolve st "" = .error .emptyPath from by unfold resolve; rw [if_pos rfl]] at h
    cases h
  · unfold resolve at h
    rw [if_neg hpe] at h
    dsimp only [] at h
    generalize (if path = "/" then "/" else dropTrailingSlashes path) = np at h
    generalize (if startsWithSlash np = true then (1 : Nat) else st.cwdId) = start at h
    cases hcur : getInodeE st start with
    | error e =>
      rw [hcur] at h
      cases h
    | ok cur =>
      rw [hcur] at h
      dsimp only [] at h
      split at h
      · cases hroot : getInodeE st 1 with
        | error e =>
          rw [hroot] at h
          cases h
        | ok root =>
          rw [hroot] at h
          simp only [Except.ok.injEq, ResolveResult.mk.injEq, Option.some.injEq] at h
          obtain ⟨h1, h2⟩ := h
          subst h1
          exact ⟨_, getInodeE_ok_mem hroot⟩
      · exact resolveSegs_mem st _ cur cur t p h ⟨_, getInodeE_ok_mem hcur⟩

theorem idInv_flush {σ : Type} {d : Driver σ} {st st' : VFSState} {ds ds' : σ}
    (h : flush d st ds = .ok (st', ds')) (hi : IdInv st) : IdInv st' := by
  have hf := flush_ok_state _ _ _ _ _ h
  intro p hp
  rw [hf.1] at hp
  rw [hf.2.2.1]
  exact hi p hp

theorem idInv_flushFF {σ : Type} {d : Driver σ} {st : VFSState} {ds : σ}
    (hi : IdInv st) : IdInv (flushFF d st ds).1 := by
  have hf := flushFF_state d st ds
  intro p hp
  rw [hf.1] at hp
  rw [hf.2.2.1]
  exact hi p hp

theorem idInv_read {now fd n : Nat} {st : VFSState} {bytes : List Nat} {st' : VFSState}
    (h : readF now fd n st = .ok (bytes, st')) (hi : IdInv st) : IdInv st' := by
  unfold readF getInodeE at h
  split at h
  · cases h
  next hh =>
    split at h
    · cases h
    · split at h
      next node hn =>
        rw [bind_ok_eq] at h
        cases h
        exact idInv_set hi (hi (_, node) (mapGet_some_mem hn)).1
          (hi (_, node) (mapGet_some_mem hn)).2
      next hn =>
        cases h

theorem idInv_write {σ : Type} {d : Driver σ} {now fd : Nat} {buf : List Nat}
    {st : VFSState} {ds : σ} {st' : VFSState} {ds' : σ}
    (h : writeF d now fd buf st ds = .ok (st', ds')) (hi : IdInv st) : IdInv st' := by
  unfold writeF getInodeE at h
  split at h
  · cases h
  next h2 heqh =>
    split at h
    · cases h
    · split at h
      next node hn =>
        rw [bind_ok_eq] at h
        dsimp only [] at h
        obtain ⟨⟨stY, dsY⟩, hfl, hok2⟩ := bind_eq_ok h
        dsimp only [] at hok2
        cases hok2
        have hfs := flush_ok_state _ _ _ _ _ hfl
        intro p hp
        rw [hfs.1] at hp
        rw [hfs.2.2.1]
        simp only [markDirtyInode, markDirtyDir] at hp
        have hpair := hi (_, node) (mapGet_some_mem hn)
        refine idInv_set hi ?_ ?_ p hp
        · exact hpair.1
        · exact hpair.2
      next hn =>
        cases h

theorem idInv_clean {σ : Type} {d : Driver σ} {now fd : Nat}
    {st : VFSState} {ds : σ} {st' : VFSState} {ds' : σ}
    (h : cleanPayload d now fd st ds = .ok (st', ds')) (hi : IdInv st) : IdInv st' := by
  unfold cleanPayload getInodeE at h
  split at h
  · cases h
  next h2 heqh =>
    split at h
    · cases h
    · split at h
      next node hn =>
        rw [bind_ok_eq] at h
        dsimp only [] at h
        split at h
        · cases h
        · have hpair := hi (_, node) (mapGet_some_mem hn)
          refine idInv_flush h ?_
          intro p hp
          simp only [markDirtyInode, markDirtyDir] at hp
          refine idInv_set hi ?_ ?_ p hp
          · exact hpair.1
          · exact hpair.2
      next hn =>
        cases h

theorem idInv_close {fd : Nat} {st st' : VFSState}
    (h : closeF fd st = .ok st') (hi : IdInv st) : IdInv st' := by
  unfold closeF at h
  split at h
  · cases h
  · cases h
    exact hi

theorem idInv_cd {σ : Type} {d : Driver σ} {now : Nat} {path : String}
    {st : VFSState} {ds : σ} {st' : VFSState} {ds' : σ}
    (h : cd d now path st ds = .ok (st', ds')) (hi : IdInv st) : IdInv st' := by
  unfold cd at h
  cases hres : resolve st path with
  | error e =>
    rw [hres, bind_error_eq] at h
    cases h
  | ok r =>
    obtain ⟨rt, rp⟩ := r
    rw [hres, bind_ok_eq] at h
    cases rt with
    | none => cases h
    | some t =>
      dsimp only [] at h
      split at h
      · cases h
      next htd =>
        injection h with h2
        have hst := congrArg Prod.fst h2
        dsimp only [] at hst
        rw [← hst]
        obtain ⟨k, hk⟩ := resolve_target_mem st path t rp hres
        have hpair := hi (k, t) (mapGet_some_mem hk)
        have hpid : t.id = k := hpair.1
        have hplt : k < st.nextInodeId := hpair.2
        refine idInv_flushFF ?_
        intro p hp
        simp only [markDirtyInode] at hp
        refine idInv_set hi ?_ ?_ p hp
        · rfl
        · rw [hpid]
          exact hplt

theorem idInv_cat {σ : Type} {d : Driver σ} {now : Nat} {path : String}
    {st : VFSState} {ds : σ} {bytes : List Nat} {st' : VFSState} {ds' : σ}
    (h : cat d now path st ds = .ok (bytes, st', ds')) (hi : IdInv st) : IdInv st' := by
  unfold cat getInodeE at h
  cases hres : resolve st path with
  | error e =>
    rw [hres, bind_error_eq] at h
    cases h
  | ok r =>
    obtain ⟨rt, rp⟩ := r
    rw [hres, bind_ok_eq] at h
    cases rt with
    | none => cases h
    | some t =>
      dsimp only [] at h
      split at h
      · cases h
      next htf =>
        split at h
        next inode hn =>
          rw [bind_ok_eq] at h
          split at h
          · cases h
          next bytes2 hb =>
            obtain ⟨⟨stY, dsY⟩, hfl, hok2⟩ := bind_eq_ok h
            dsimp only [] at hok2
            cases hok2
            refine idInv_flush hfl ?_
            intro p hp
            simp only [markDirtyInode] at hp
            have hpair := hi (t.id, inode) (mapGet_some_mem hn)
            refine idInv_set hi ?_ ?_ p hp
            · exact hpair.1
            · exact hpair.2
        next hn =>
          cases h

theorem idInv_mkdir {σ : Type} {d : Driver σ} {now : Nat} {path : String}
    {st : VFSState} {ds : σ} {st' : VFSState} {ds' : σ}
    (h : mkdir d now path st ds = .ok (st', ds')) (hi : IdInv st) : IdInv st' := by
  unfold mkdir at h
  cases hres : resolve st path with
  | error e =>
    rw [hres, bind_error_eq] at h
    cases h
  | ok r =>
    rw [hres, bind_ok_eq] at h
    split at h
    · cases h
    next ht =>
      dsimp only [] at h
      split at h
      · cases h
      next m hm =>
        refine idInv_flush h ?_
        intro p hp
        simp only [markDirtyInode, markDirtyDir] at hp
        rcases mem_mapSet hp with rfl | hmem
        · exact ⟨rfl, Nat.lt_succ_self _⟩
        · have hp2 := hi p hmem
          exact ⟨hp2.1, Nat.lt_succ_of_lt hp2.2⟩

theorem idInv_touch {σ : Type} {d : Driver σ} {now : Nat} {path : String}
    {st : VFSState} {ds : σ} {st' : VFSState} {ds' : σ}
    (h : touch d now path st ds = .ok (st', ds')) (hi : IdInv st) : IdInv st' := by
  unfold touch at h
  cases hres : resolve st path with
  | error e =>
    rw [hres, bind_error_eq] at h
    cases h
  | ok r =>
    rw [hres, bind_ok_eq] at h
    split at h
    · cases h
    next ht =>
      dsimp only [] at h
      split at h
      · cases h
      next m hm =>
        refine idInv_flush h ?_
        intro p hp
        simp only [markDirtyInode, markDirtyDir] at hp
        rcases mem_mapSet hp with rfl | hmem
        · exact ⟨rfl, Nat.lt_succ_self _⟩
        · have hp2 := hi p hmem
          exact ⟨hp2.1, Nat.lt_succ_of_lt hp2.2⟩

theorem idInv_sync {σ : Type} {d : Driver σ} {st : VFSState} {ds : σ}
    {st' : VFSState} {ds' : σ}
    (h : sync d st ds = .ok (st', ds')) (hi : IdInv st) : IdInv st' :=
  idInv_flush h hi

theorem idInv_open {σ : Type} {d : Driver σ} {now : Nat} {path : String}
    {mode : FileOpenMode} {fd : Nat} {st : VFSState} {ds : σ} {st' : VFSState} {ds' : σ}
    (h : openF d now path mode st ds = .ok (fd, st', ds')) (hi : IdInv st) : IdInv st' := by
  unfold openF at h
  cases hres : resolve st path with
  | error e =>
    rw [hres, bind_error_eq] at h
    cases h
  | ok r =>
    obtain ⟨rt, rp⟩ := r
    rw [hres, bind_ok_eq] at h
    split at h
    · cases h
    next hpt =>
      cases rt with
      | none =>
        dsimp only [] at h
        split at h
        · cases h
        next hw =>
          split at h
          · cases h
          next m hm =>
            rw [bind_pure_eq] at h
            cases h
            refine idInv_flushFF ?_
            intro p hp
            simp only [markDirtyInode, markDirtyDir] at hp
            rcases mem_mapSet hp with rfl | hmem
            · exact ⟨rfl, Nat.lt_succ_self _⟩
            · rcases mem_mapSet hmem with rfl | hmem2
              · exact ⟨rfl, Nat.lt_succ_self _⟩
              · have hp2 := hi p hmem2
                exact ⟨hp2.1, Nat.lt_succ_of_lt hp2.2⟩
      | some t =>
        dsimp only [] at h
        split at h
        · cases h
        next htf =>
          rw [bind_pure_eq] at h
          cases h
          obtain ⟨k, hk⟩ := resolve_target_mem st path t rp hres
          have hpair := hi (k, t) (mapGet_some_mem hk)
          have hpid : t.id = k := hpair.1
          have hplt : k < st.nextInodeId := hpair.2
          refine idInv_flushFF ?_
          intro p hp
          simp only [markDirtyInode, markDirtyDir] at hp
          refine idInv_set hi ?_ ?_ p hp
          · rfl
          · rw [hpid]
            exact hplt

/-- One Facade operation, at any timestamp and with any arguments: the
transition relation of the VFS paired with its driver state. -/
inductive Step {σ : Type} (d : Driver σ) : VFSState × σ → VFSState × σ → Prop where
  | openStep (now : Nat) (path : String) (mode : FileOpenMode) (fd : Nat)
      (st : VFSState) (ds : σ) (st' : VFSState) (ds' : σ) :
      openF d now path mode st ds = .ok (fd, st', ds') → Step d (st, ds) (st', ds')
  | readStep (now fd n : Nat) (st : VFSState) (ds : σ) (bytes : List Nat) (st' : VFSState) :
      readF now fd n st = .ok (bytes, st') → Step d (st, ds) (st', ds)
  | writeStep (now fd : Nat) (buf : List Nat) (st : VFSState) (ds : σ)
      (st' : VFSState) (ds' : σ) :
      writeF d now fd buf st ds = .ok (st', ds') → Step d (st, ds) (st', ds')
  | cleanStep (now fd : Nat) (st : VFSState) (ds : σ) (st' : VFSState) (ds' : σ) :
      cleanPayload d now fd st ds = .ok (st', ds') → Step d (st, ds) (st', ds')
  | closeStep (fd : Nat) (st : VFSState) (ds : σ) (st' : VFSState) :
      closeF fd st = .ok st' → Step d (st, ds) (st', ds)
  | mkdirStep (now : Nat) (path : String) (st : VFSState) (ds : σ)
      (st' : VFSState) (ds' : σ) :
      mkdir d now path st ds = .ok (st', ds') → Step d (st, ds) (st', ds')
  | cdStep (now : Nat) (path : String) (st : VFSState) (ds : σ)
      (st' : VFSState) (ds' : σ) :
      cd d now path st ds = .ok (st', ds') → Step d (st, ds) (st', ds')
  | lsStep (path : String) (st : VFSState) (ds : σ)
      (l : List (String × InodeType × Nat)) :
      lsF st path = .ok l → Step d (st, ds) (st, ds)
  | touchStep (now : Nat) (path : String) (st : VFSState) (ds : σ)
      (st' : VFSState) (ds' : σ) :
      touch d now path st ds = .ok (st', ds') → Step d (st, ds) (st', ds')
  | catStep (now : Nat) (path : String) (st : VFSState) (ds : σ)
      (bytes : List Nat) (st' : VFSState) (ds' : σ) :
      cat d now path st ds = .ok (bytes, st', ds') → Step d (st, ds) (st', ds')
  | syncStep (st : VFSState) (ds : σ) (st' : VFSState) (ds' : σ) :
      sync d st ds = .ok (st', ds') → Step d (st, ds) (st', ds')

/-- Every Facade step preserves the id/counter invariant. -/
theorem idInv_step {σ : Type} {d : Driver σ} {s s' : VFSState × σ}
    (h : Step d s s') (hi : IdInv s.1) : IdInv s'.1 := by
  cases h with
  | openStep now path mode fd st ds st' ds' hop => exact idInv_open hop hi
  | readStep now fd n st ds bytes st' hop => exact idInv_read hop hi
  | writeStep now fd buf st ds st' ds' hop => exact idInv_write hop hi
  | cleanStep now fd st ds st' ds' hop => exact idInv_clean hop hi
  | closeStep fd st ds st' hop => exact idInv_close hop hi
  | mkdirStep now path st ds st' ds' hop => exact idInv_mkdir hop hi
  | cdStep now path st ds st' ds' hop => exact idInv_cd hop hi
  | lsStep path st ds l hop => exact hi
  | touchStep now path st ds st' ds' hop => exact idInv_touch hop hi
  | catStep now path st ds bytes st' ds' hop => exact idInv_cat hop hi
  | syncStep st ds st' ds' hop => exact idInv_sync hop hi

/-- Well-formedness of the snapshot a restore starts from: either empty
(fresh initialization) or a snapshot whose pairs carry their key as inode id
and which contains the root inode 1 — both properties hold of every
snapshot the system itself persists. -/
def WFSnap (snap : SerializedFS) : Prop :=
  snap.inodes = [] ∨
    ((∀ p ∈ snap.inodes, p.2.id = p.1) ∧ (mapGet snap.inodes 1).isSome = true)

/-- `VFS.create` establishes the id/counter invariant, from a fresh
initialization or from a restore of a well-formed non-empty snapshot. -/
theorem idInv_create {σ : Type} (d : Driver σ) (now : Nat) (ds0 : σ)
    (s0 : VFSState × σ) (hwf : WFSnap (d.loadFS ds0).1)
    (h : create d now ds0 = .ok s0) : IdInv s0.1 := by
  unfold create at h
  obtain ⟨⟨stB, dsB⟩, hboot, hcont⟩ := bind_eq_ok h
  dsimp only [] at hcont
  unfold bootstrap at hboot
  dsimp only [] at hboot
  by_cases hemp : (d.loadFS ds0).1.inodes = []
  · rw [if_neg (by simp [hemp])] at hboot
    have hfs := flush_ok_state _ _ _ _ _ hboot
    have hroot : mapGet stB.inodes 1 = some (rootInode now) := by
      rw [hfs.1]
      rfl
    rw [hroot] at hcont
    rw [if_neg (by simp)] at hcont
    cases hcont
    intro p hp
    rw [hfs.1] at hp
    rw [hfs.2.2.1]
    rcases mem_mapSet hp with rfl | hmem
    · exact ⟨rfl, Nat.one_lt_two⟩
    · cases hmem
  · rcases hwf with hwf | ⟨hids, hone⟩
    · exact absurd hwf hemp
    · rw [if_pos (by simp [hemp])] at hboot
      injection hboot with hboot2
      have hstB := congrArg Prod.fst hboot2
      dsimp only [] at hstB
      subst hstB
      rw [show mapGet ({ emptyVFS with
            inodes := (d.loadFS ds0).1.inodes, dirs := (d.loadFS ds0).1.dirs,
            nextInodeId := ((d.loadFS ds0).1.inodes.map (fun p => p.1)).foldl max 0 + 1 } :
          VFSState).inodes 1 = mapGet (d.loadFS ds0).1.inodes 1 from rfl] at hcont
      rw [if_neg (by rw [Option.isNone_iff_eq_none]; intro hnone; rw [hnone] at hone; cases hone)] at hcont
      cases hcont
      intro p hp
      refine ⟨hids p hp, ?_⟩
      have hle := (le_foldl_max ((d.loadFS ds0).1.inodes.map (fun q => q.1)) 0).1 p.1
        (List.mem_map.2 ⟨p, hp, rfl⟩)
      exact Nat.lt_succ_of_le hle

/-- C9: in every state reachable by any sequence of Facade operations from
`VFS.create` — a fresh initialization or a restore from a well-formed
non-empty snapshot — the next-inode-id counter is strictly greater than
every inode id in the store (first conjunct), and consequently the id
`nextInodeId` that `open`/`mkdir`/`touch` assign to a newly created inode is
not yet a key of the store (second conjunct). -/
theorem C9_next_id_invariant {σ : Type} (d : Driver σ) (now : Nat) (ds0 : σ)
    (s0 s : VFSState × σ) (hwf : WFSnap (d.loadFS ds0).1)
    (hcreate : create d now ds0 = .ok s0)
    (hreach : Relation.ReflTransGen (Step d) s0 s) :
    (∀ p ∈ s.1.inodes, p.1 < s.1.nextInodeId) ∧
    mapGet s.1.inodes s.1.nextInodeId = none := by
  have hinv : IdInv s.1 := by
    induction hreach with
    | refl => exact idInv_create d now ds0 s0 hwf hcreate
    | tail hab hbc ih => exact idInv_step hbc ih
  refine ⟨fun p hp => (hinv p hp).2, ?_⟩
  exact mapGet_none_of_forall (fun p hp => Nat.ne_of_lt (hinv p hp).2)

/-- The state `VFS.create` builds on a fresh `MemoryDriver` (extraction). -/
def freshCreated : VFSState × Option SerializedFS :=
  ((create MemoryDriver 0 none).toOption).getD (emptyVFS, none)

/-- Witness for C9: a fresh `MemoryDriver` bootstrap satisfies the
hypotheses, and in the created state (zero steps) the counter bounds every
stored id and is itself unused. -/
theorem C9_next_id_invariant_witness :
    WFSnap (MemoryDriver.loadFS none).1 ∧
    create MemoryDriver 0 (none : Option SerializedFS) = .ok freshCreated ∧
    ((∀ p ∈ freshCreated.1.inodes, p.1 < freshCreated.1.nextInodeId) ∧
     mapGet freshCreated.1.inodes freshCreated.1.nextInodeId = none) := by
  refine ⟨?_, by decide, ?_⟩
  · left
    rfl
  · exact C9_next_id_invariant MemoryDriver 0 none freshCreated freshCreated
      (Or.inl rfl) (by decide) Relation.ReflTransGen.refl

end WebVFS
